import Mathlib

/-!
Verification of the phoenix-bedrock-monitoring plan-execute-respond agent.

The Python data model (`src/agent/states/schemas.py`) and the node logic of
the Executor (`src/agent/nodes/executor.py`) and the Responder
(`src/agent/nodes/responder.py`) are embedded shallowly: pydantic models
become structures, the tool registry becomes a lookup function, a raised
Python exception becomes an `Except.error`, and the in-place `pop(0)`
mutation of the caller's task list is made explicit by returning the
caller's post-call task list alongside the node's result.
-/

namespace PhoenixAgent

/-- Tool arguments (`tool_args: dict`); the agent core only passes them
through to the tool, so an association list of string pairs suffices. -/
def ToolArgs : Type := List (String × String)
deriving DecidableEq, Repr

/-- One entry of the `results` list of a search-shaped tool result; the
Responder reads only its (possibly absent, possibly empty) `url` field. -/
structure ResultItem where
  url : Option String
deriving DecidableEq, Repr

/-- A tool result value.  The Responder recognises exactly one structured
shape — a dict with `results` and `llm_text` keys — and treats every other
value as plain text (`str(result)`), so a two-case union is faithful. -/
inductive ResValue where
  | bundle (results : List ResultItem) (llm_text : String)
  | str (s : String)
deriving DecidableEq, Repr

/-- Python `str(result)` as applied by the Responder.  A stored string
renders as itself; the rendering of a dict (`bundle`) is abstracted as its
text digest — no verified property depends on that branch, because the
Responder string-ifies only non-bundle values. -/
def ResValue.display : ResValue → String
  | .str s => s
  | .bundle _ t => t

/-- `Task` from `schemas.py`. -/
structure Task where
  title : String
  tool_name : String
  tool_args : ToolArgs
  description : String
deriving DecidableEq, Repr

/-- `Plan` from `schemas.py`. -/
structure Plan where
  requires_tool : Bool
  direct_response : String
  overview : String
  tasks : List Task
deriving DecidableEq, Repr

/-- One record appended to `executed_tasks` by the Executor:
`{"task": task, "result": result, "success": flag}`. -/
structure ExecutedTask where
  task : Task
  result : ResValue
  success : Bool
deriving DecidableEq, Repr

/-- A `message_history` entry: `{"role": ..., "content": ...}`. -/
structure Message where
  role : String
  content : String
deriving DecidableEq, Repr

/-- `AgentState` from `schemas.py`. -/
structure AgentState where
  input : String
  plan : Plan
  executed_tasks : List ExecutedTask
  remaining_tasks : List Task
  response : String
  message_history : List Message
deriving DecidableEq, Repr

/-- `AgentState.initial_state()` from `schemas.py`. -/
def AgentState.initial_state : AgentState :=
  { input := ""
    plan := { requires_tool := false, direct_response := "", overview := "", tasks := [] }
    executed_tasks := []
    remaining_tasks := []
    response := ""
    message_history := [] }

/-- A registered tool's invocation behaviour: `tool.invoke(args)` either
returns a result value or raises, carrying the error text `str(e)`. -/
def Tool : Type := ToolArgs → Except String ResValue

/-- The Executor's tool registry `self.tools = {tool.name: tool for tool in tools}`,
as the lookup function it is used for. -/
def Registry : Type := String → Option Tool

/-- Building the registry dict from the constructor's tool list; as in a
Python dict comprehension, a later tool with the same name overwrites an
earlier one. -/
def buildRegistry (tools : List (String × Tool)) : Registry :=
  tools.foldl (fun m nt => fun n => if n = nt.1 then some nt.2 else m n) (fun _ => none)

/-- The error a Python `KeyError` on `self.tools[task.tool_name]` becomes. -/
inductive ExecError where
  | keyError (name : String)
deriving DecidableEq, Repr

/-- Everything observable about one `Executor.__call__`: the content of the
caller's `state.plan.tasks` after the call (the code mutates it in place via
`state.plan.tasks.pop(0)`), and either the returned state or the exception
that escaped. -/
structure ExecOutcome where
  callerTasks : List Task
  result : Except ExecError AgentState
deriving Repr

/-- `Executor.__call__` from `executor.py`.

* Empty task list: return the input state unchanged (line 17–19).
* Otherwise `pop(0)` the head — mutating the caller's plan — then look the
  tool up (line 31, outside the `try`, so a missing name raises `KeyError`),
  invoke it inside `try`, and build the returned dict from `model_dump()` of
  the popped state with `executed_tasks` / `remaining_tasks` overwritten by
  the per-call local lists (lines 52–56). -/
def Executor.call (tools : Registry) (state : AgentState) : ExecOutcome :=
  match state.plan.tasks with
  | [] => { callerTasks := state.plan.tasks, result := .ok state }
  | task :: rest =>
    let popped : AgentState := { state with plan := { state.plan with tasks := rest } }
    match tools task.tool_name with
    | none => { callerTasks := rest, result := .error (.keyError task.tool_name) }
    | some tool =>
      match tool task.tool_args with
      | .ok res =>
        { callerTasks := rest
          result := .ok { popped with
            executed_tasks := [{ task := task, result := res, success := true }]
            remaining_tasks := [] } }
      | .error e =>
        { callerTasks := rest
          result := .ok { popped with
            executed_tasks := [{ task := task, result := .str e, success := false }]
            remaining_tasks := [task] } }

/-- `n` successive Executor invocations, each fed the state the previous one
returned; an escaped exception aborts the run. -/
def Executor.run (tools : Registry) (state : AgentState) : Nat → Except ExecError AgentState
  | 0 => .ok state
  | n + 1 =>
    match (Executor.call tools state).result with
    | .ok s1 => Executor.run tools s1 n
    | .error e => .error e

/-! ## Responder (`src/agent/nodes/responder.py`) -/

/-- Concatenation of a list of strings, as accumulated by `response += token`
or produced by joining yielded chunks. -/
def joinStrings : List String → String
  | [] => ""
  | s :: rest => s ++ joinStrings rest

/-- Python slicing `[response[i:i+100] for i in range(0, len(response), 100)]`
on the character list of the response. -/
def chunks100 (l : List Char) : List (List Char) :=
  if hne : l = [] then []
  else l.take 100 :: chunks100 (l.drop 100)
termination_by l.length
decreasing_by
  simp only [List.length_drop]
  exact Nat.sub_lt (List.length_pos.mpr hne) (by omega)

/-- The 100-character chunks of a string, in order. -/
def stringChunks (s : String) : List String :=
  (chunks100 s.data).map String.mk

/-- One step of the `for task_info in state.executed_tasks` loop of
`Responder._build_context`: the accumulator carries the `context_parts`
list, the `urls` list and the running `url_index`. -/
def contextStep (acc : List String × List String × Nat) (info : ExecutedTask) :
    List String × List String × Nat :=
  let parts := acc.1
  let urls := acc.2.1
  let idx := acc.2.2
  if info.success = false then
    (parts ++ ["Status: Failed", "Error: " ++ info.result.display], urls, idx)
  else
    match info.result with
    | .bundle results llm_text =>
      let folded := results.foldl
        (fun ui item =>
          match item.url with
          | some u0 =>
            if u0 ≠ "" then (ui.1 ++ ["[" ++ toString ui.2 ++ "] " ++ u0], ui.2 + 1)
            else ui
          | none => ui)
        (urls, idx)
      (parts ++ [llm_text], folded.1, folded.2)
    | .str s => (parts ++ [s], urls, idx)

/-- `list(dict.fromkeys(urls))`: drop duplicates, keeping the first
occurrence of each element. -/
def dedupFirst (l : List String) : List String :=
  l.foldl (fun acc x => if x ∈ acc then acc else acc ++ [x]) []

/-- `Responder._build_context`: the synthesis context text and the derived
citation list. -/
def Responder.buildContext (state : AgentState) : String × List String :=
  if state.plan.direct_response = "" then
    let start : List String × List String × Nat :=
      (["Plan overview: " ++ state.plan.overview ++
        "\n\nExecuted tasks and their results:\n"], [], 1)
    let folded := state.executed_tasks.foldl contextStep start
    (String.intercalate "\n" folded.1, dedupFirst folded.2.1)
  else
    ("Direct response: " ++ state.plan.direct_response, [])

/-- An event yielded by the Responder's async generators: either a text
chunk or the final dict carrying the full response and the appended
message history. -/
inductive RespEvent where
  | token (s : String)
  | final (response : String) (message_history : List Message)
deriving DecidableEq, Repr

/-- Whether an event is the terminal (final-dict) event. -/
def RespEvent.isFinal : RespEvent → Bool
  | .final _ _ => true
  | .token _ => false

/-- Number of terminal events in a yielded sequence. -/
def finalCount (evs : List RespEvent) : Nat :=
  (evs.filter RespEvent.isFinal).length

/-- The text chunks of a yielded sequence, in order. -/
def tokenStrings (evs : List RespEvent) : List String :=
  evs.filterMap fun e =>
    match e with
    | .token s => some s
    | .final _ _ => none

/-- `Responder.__call__` from `responder.py`, with the language model's
streamed text tokens abstracted as the list `modelTokens` (the code skips
empty tokens, hence the filter).  With a non-empty `direct_response` the
model is never consulted: the response is yielded in 100-character chunks.
Either way the generator ends with the final dict holding the accumulated
response and `[*state.message_history, {"role": "assistant", ...}]`. -/
def Responder.call (modelTokens : List String) (state : AgentState) : List RespEvent :=
  if state.plan.direct_response = "" then
    let toks := modelTokens.filter (fun t => t ≠ "")
    let response := joinStrings toks
    toks.map RespEvent.token ++
      [.final response (state.message_history ++ [{ role := "assistant", content := response }])]
  else
    let response := state.plan.direct_response
    (stringChunks response).map RespEvent.token ++
      [.final response (state.message_history ++ [{ role := "assistant", content := response }])]

/-- `Responder.astream` from `responder.py`, same model-token abstraction.
Note the asymmetry in the source: with a non-empty `direct_response` the
method yields the response string once and returns — the final dict is
yielded only on the streaming branch. -/
def Responder.astream (modelTokens : List String) (state : AgentState) : List RespEvent :=
  if state.plan.direct_response = "" then
    let toks := modelTokens.filter (fun t => t ≠ "")
    let response := joinStrings toks
    toks.map RespEvent.token ++
      [.final response (state.message_history ++ [{ role := "assistant", content := response }])]
  else
    [.token state.plan.direct_response]

/-! ## Helper lemmas -/

/-- Appending the pieces of `String.mk` lists is `String.mk` of the append. -/
theorem mk_append (a b : List Char) : String.mk a ++ String.mk b = String.mk (a ++ b) := rfl

/-- Chunking splits a list without loss: joining the chunks restores it. -/
theorem chunks100_join (l : List Char) : (chunks100 l).flatten = l := by
  rw [chunks100]
  split
  · simp_all
  · rw [List.flatten_cons, chunks100_join (l.drop 100), List.take_append_drop]
termination_by l.length
decreasing_by
  simp only [List.length_drop]
  exact Nat.sub_lt (List.length_pos.mpr (by assumption)) (by omega)

/-- `joinStrings` over `String.mk` chunks is `String.mk` of the joined chunks. -/
theorem joinStrings_map_mk (L : List (List Char)) :
    joinStrings (L.map String.mk) = String.mk L.flatten := by
  induction L with
  | nil => rfl
  | cons a L ih => rw [List.map_cons, joinStrings, ih, List.flatten_cons, mk_append]

/-- Concatenating the 100-character chunks of a string restores the string. -/
theorem joinStrings_stringChunks (s : String) : joinStrings (stringChunks s) = s := by
  rw [stringChunks, joinStrings_map_mk, chunks100_join]

/-- The text chunks of a token run followed by one final event are exactly
the run's strings. -/
theorem tokenStrings_tokens_final (l : List String) (r : String) (hist : List Message) :
    tokenStrings (l.map RespEvent.token ++ [RespEvent.final r hist]) = l := by
  induction l with
  | nil => rfl
  | cons a l ih =>
    simp only [List.map_cons, List.cons_append, tokenStrings, List.filterMap_cons]
    simpa [tokenStrings] using ih

/-- A token run followed by one final event holds exactly one final event. -/
theorem finalCount_tokens_final (l : List String) (r : String) (hist : List Message) :
    finalCount (l.map RespEvent.token ++ [RespEvent.final r hist]) = 1 := by
  induction l with
  | nil => rfl
  | cons a l ih =>
    simp only [finalCount, RespEvent.isFinal] at ih
    simp [finalCount, RespEvent.isFinal, ih]

/-- The Responder guarantee for one yielded sequence: exactly one terminal
event, yielded last, whose history is the input history plus one assistant
entry whose content is the concatenation of all yielded text chunks. -/
def goodEvents (st : AgentState) (evs : List RespEvent) : Prop :=
  finalCount evs = 1 ∧
  ∃ r, evs.getLast? =
      some (.final r (st.message_history ++ [{ role := "assistant", content := r }])) ∧
    r = joinStrings (tokenStrings evs)

/-- Any token run closed by a matching final event satisfies the Responder
guarantee. -/
theorem goodEvents_tokens_final (st : AgentState) (l : List String) (r : String)
    (hr : r = joinStrings l) :
    goodEvents st
      (l.map RespEvent.token ++
        [.final r (st.message_history ++ [{ role := "assistant", content := r }])]) := by
  refine ⟨finalCount_tokens_final l r _, r, ?_, ?_⟩
  · simp
  · rw [tokenStrings_tokens_final, hr]

/-! ## Concrete fixtures for witnesses and counterexamples -/

/-- A tool whose invocation always succeeds with a plain-text result. -/
def searchOk : Tool := fun _ => .ok (.str "ok")

/-- A tool whose invocation always raises with error text `boom`. -/
def searchFail : Tool := fun _ => .error "boom"

/-- A registry holding one working tool named `search`. -/
def regOk : Registry := buildRegistry [("search", searchOk)]

/-- A registry holding one raising tool named `search`. -/
def regFail : Registry := buildRegistry [("search", searchFail)]

/-- A task naming the registered `search` tool. -/
def searchTask : Task :=
  { title := "look", tool_name := "search", tool_args := [], description := "" }

/-- A task naming a tool absent from every fixture registry. -/
def missingTask : Task :=
  { title := "look", tool_name := "missing_tool", tool_args := [], description := "" }

/-- A state about to execute the given tasks. -/
def planState (ts : List Task) : AgentState :=
  { input := "q"
    plan := { requires_tool := true, direct_response := "", overview := "ov", tasks := ts }
    executed_tasks := []
    remaining_tasks := []
    response := ""
    message_history := [] }

/-! ## C1 -/

/-- C1 fails on the code: the tool lookup `self.tools[task.tool_name]`
happens before the `try` block, so an unregistered name raises `KeyError`
instead of being recorded as a failed task. -/
theorem C1_counterexample :
    (Executor.call regOk (planState [missingTask])).result =
      .error (.keyError "missing_tool") := rfl

/-- C1 (amended): for every AgentState whose head task names a tool not
present in the registry, the Executor raises a `KeyError` — nothing is
recorded in `executed_tasks` and the turn is aborted; the head task has
nevertheless already been popped from the caller's task list. -/
theorem C1_amended (tools : Registry) (state : AgentState) (t : Task) (rest : List Task)
    (htasks : state.plan.tasks = t :: rest) (hmiss : tools t.tool_name = none) :
    Executor.call tools state =
      { callerTasks := rest, result := .error (.keyError t.tool_name) } := by
  unfold Executor.call
  rw [htasks]
  simp [hmiss]

/-- C1 amended claim checked on a concrete state: one task naming
`missing_tool` against a registry that only knows `search`. -/
theorem C1_amended_witness :
    (planState [missingTask]).plan.tasks = [missingTask] ∧
    regOk missingTask.tool_name = none ∧
    Executor.call regOk (planState [missingTask]) =
      { callerTasks := [], result := .error (.keyError "missing_tool") } :=
  ⟨rfl, rfl, C1_amended regOk (planState [missingTask]) missingTask [] rfl rfl⟩

/-! ## C3 -/

/-- First of two fixture tasks for the accumulation claim. -/
def taskA : Task :=
  { title := "first", tool_name := "search", tool_args := [], description := "" }

/-- Second of two fixture tasks for the accumulation claim. -/
def taskB : Task :=
  { title := "second", tool_name := "search", tool_args := [], description := "" }

/-- The state reached after two successful Executor invocations on
`planState [taskA, taskB]`. -/
def c3Final : AgentState :=
  { input := "q"
    plan := { requires_tool := true, direct_response := "", overview := "ov", tasks := [] }
    executed_tasks := [{ task := taskB, result := .str "ok", success := true }]
    remaining_tasks := []
    response := ""
    message_history := [] }

/-- C3 fails on the code: the Executor overwrites `executed_tasks` with only
the current call's record (`"executed_tasks": executed_tasks` over a fresh
local list), so after the second invocation the first invocation's record is
gone instead of accumulated. -/
theorem C3_counterexample :
    Executor.run regOk (planState [taskA, taskB]) 2 = .ok c3Final ∧
    { task := taskA, result := ResValue.str "ok", success := true } ∉
      c3Final.executed_tasks := ⟨rfl, by decide⟩

/-- C3 (amended): after every Executor invocation that returns,
`executed_tasks` holds exactly the one record of the task just attempted —
records of earlier invocations of the turn are discarded, not accumulated —
and `remaining_tasks` holds just the re-queued current task when that
record's success flag is false, and nothing when it is true. -/
theorem C3_amended (tools : Registry) (state : AgentState) (t : Task) (rest : List Task)
    (htasks : state.plan.tasks = t :: rest) (s1 : AgentState)
    (hok : (Executor.call tools state).result = .ok s1) :
    ∃ r b, s1.executed_tasks = [{ task := t, result := r, success := b }] ∧
      s1.remaining_tasks = (if b then [] else [t]) := by
  rcases hlook : tools t.tool_name with _ | tool
  · have hres : (Executor.call tools state).result = .error (.keyError t.tool_name) := by
      unfold Executor.call
      rw [htasks]
      simp [hlook]
    rw [hres] at hok
    simp at hok
  · rcases hinv : tool t.tool_args with e | r
    · have hres : (Executor.call tools state).result = .ok
          { state with
            plan := { state.plan with tasks := rest },
            executed_tasks := [{ task := t, result := .str e, success := false }],
            remaining_tasks := [t] } := by
        unfold Executor.call
        rw [htasks]
        simp [hlook, hinv]
      rw [hres] at hok
      injection hok with h1
      subst h1
      exact ⟨.str e, false, rfl, rfl⟩
    · have hres : (Executor.call tools state).result = .ok
          { state with
            plan := { state.plan with tasks := rest },
            executed_tasks := [{ task := t, result := r, success := true }],
            remaining_tasks := [] } := by
        unfold Executor.call
        rw [htasks]
        simp [hlook, hinv]
      rw [hres] at hok
      injection hok with h1
      subst h1
      exact ⟨r, true, rfl, rfl⟩

/-- The state returned by the first Executor invocation on
`planState [taskA, taskB]` over the working registry. -/
def c3Mid : AgentState :=
  { input := "q"
    plan := { requires_tool := true, direct_response := "", overview := "ov", tasks := [taskB] }
    executed_tasks := [{ task := taskA, result := .str "ok", success := true }]
    remaining_tasks := []
    response := ""
    message_history := [] }

/-- The state returned by the Executor invocation on `planState [searchTask]`
over the registry whose `search` tool raises. -/
def c3FailState : AgentState :=
  { input := "q"
    plan := { requires_tool := true, direct_response := "", overview := "ov", tasks := [] }
    executed_tasks := [{ task := searchTask, result := .str "boom", success := false }]
    remaining_tasks := [searchTask]
    response := ""
    message_history := [] }

/-- C3 amended claim checked concretely on both branches: a succeeding
invocation leaves `remaining_tasks` empty, a failing invocation re-queues
exactly the failed task. -/
theorem C3_amended_witness :
    ((planState [taskA, taskB]).plan.tasks = taskA :: [taskB] ∧
      (Executor.call regOk (planState [taskA, taskB])).result = .ok c3Mid ∧
      ∃ r b, c3Mid.executed_tasks = [{ task := taskA, result := r, success := b }] ∧
        c3Mid.remaining_tasks = (if b then [] else [taskA])) ∧
    ((planState [searchTask]).plan.tasks = searchTask :: [] ∧
      (Executor.call regFail (planState [searchTask])).result = .ok c3FailState ∧
      ∃ r b, c3FailState.executed_tasks = [{ task := searchTask, result := r, success := b }] ∧
        c3FailState.remaining_tasks = (if b then [] else [searchTask])) :=
  ⟨⟨rfl, rfl, C3_amended regOk (planState [taskA, taskB]) taskA [taskB] rfl c3Mid rfl⟩,
    ⟨rfl, rfl, C3_amended regFail (planState [searchTask]) searchTask [] rfl c3FailState rfl⟩⟩

/-! ## C4 -/

/-- C4 fails on the code: `state.plan.tasks.pop(0)` mutates the caller's
state in place — with one pending task, the caller's `plan.tasks` is
`[searchTask]` before the call and `[]` after it. -/
theorem C4_counterexample :
    (planState [searchTask]).plan.tasks = [searchTask] ∧
    (Executor.call regOk (planState [searchTask])).callerTasks = [] := ⟨rfl, rfl⟩

/-- C4 (amended): the Executor does mutate its input — it pops the head of
the caller's `plan.tasks` in place, so after every call the caller's task
list is the tail of what it was (unchanged only when it was empty); beyond
this pop and the tool invocation no other state is touched. -/
theorem C4_amended (tools : Registry) (state : AgentState) :
    (Executor.call tools state).callerTasks = state.plan.tasks.tail := by
  unfold Executor.call
  rcases htasks : state.plan.tasks with _ | ⟨t, rest⟩
  · simp [htasks]
  · rcases hlook : tools t.tool_name with _ | tool
    · simp [hlook]
    · rcases hinv : tool t.tool_args with e | r <;> simp [hlook, hinv]

/-! ## C5 -/

/-- C5: a head task whose registered tool raises is recorded in
`executed_tasks` with `success = false` and the error text as result, and
the same task is re-queued into `remaining_tasks`. -/
theorem C5_failure_requeue (tools : Registry) (state : AgentState) (t : Task)
    (rest : List Task) (tool : Tool) (msg : String)
    (htasks : state.plan.tasks = t :: rest)
    (htool : tools t.tool_name = some tool)
    (hfail : tool t.tool_args = .error msg) :
    ∃ s1, (Executor.call tools state).result = .ok s1 ∧
      s1.executed_tasks = [{ task := t, result := .str msg, success := false }] ∧
      s1.remaining_tasks = [t] := by
  refine ⟨{ state with
            plan := { state.plan with tasks := rest },
            executed_tasks := [{ task := t, result := .str msg, success := false }],
            remaining_tasks := [t] }, ?_, rfl, rfl⟩
  unfold Executor.call
  rw [htasks]
  simp [htool, hfail]

/-- C5 checked on a concrete state: one `search` task against the registry
whose `search` tool raises `boom`. -/
theorem C5_failure_requeue_witness :
    (planState [searchTask]).plan.tasks = [searchTask] ∧
    regFail searchTask.tool_name = some searchFail ∧
    searchFail searchTask.tool_args = .error "boom" ∧
    ∃ s1, (Executor.call regFail (planState [searchTask])).result = .ok s1 ∧
      s1.executed_tasks = [{ task := searchTask, result := .str "boom", success := false }] ∧
      s1.remaining_tasks = [searchTask] :=
  ⟨rfl, rfl, rfl,
    C5_failure_requeue regFail (planState [searchTask]) searchTask [] searchFail "boom"
      rfl rfl rfl⟩

/-! ## C6 -/

/-- With a non-empty queue whose head resolves in the registry, one call
returns a state recording exactly the head task, with the queue advanced to
the tail. -/
theorem Executor.call_cons (tools : Registry) (state : AgentState) (t : Task)
    (rest : List Task) (tool : Tool)
    (htasks : state.plan.tasks = t :: rest)
    (hlook : tools t.tool_name = some tool) :
    ∃ s2 r b, (Executor.call tools state).result = .ok s2 ∧
      s2.executed_tasks = [{ task := t, result := r, success := b }] ∧
      s2.plan.tasks = rest := by
  rcases hinv : tool t.tool_args with e | r
  · refine ⟨{ state with
        plan := { state.plan with tasks := rest },
        executed_tasks := [{ task := t, result := .str e, success := false }],
        remaining_tasks := [t] }, .str e, false, ?_, rfl, rfl⟩
    unfold Executor.call
    rw [htasks]
    simp [hlook, hinv]
  · refine ⟨{ state with
        plan := { state.plan with tasks := rest },
        executed_tasks := [{ task := t, result := r, success := true }],
        remaining_tasks := [] }, r, true, ?_, rfl, rfl⟩
    unfold Executor.call
    rw [htasks]
    simp [hlook, hinv]

/-- C6: tasks are processed FIFO, one per invocation.  If every pending task
names a registered tool, then after `i` Executor invocations the pending
queue is the original one without its first `i` tasks, and invocation `i + 1`
records exactly task `i` of the original plan and no other. -/
theorem C6_fifo (tools : Registry) (state : AgentState)
    (hall : ∀ t, t ∈ state.plan.tasks → ∃ tool, tools t.tool_name = some tool)
    (i : Nat) (hi : i < state.plan.tasks.length) :
    ∃ si, Executor.run tools state i = .ok si ∧
      si.plan.tasks = state.plan.tasks.drop i ∧
      ∃ s2 ti r b, state.plan.tasks[i]? = some ti ∧
        (Executor.call tools si).result = .ok s2 ∧
        s2.executed_tasks = [{ task := ti, result := r, success := b }] ∧
        s2.plan.tasks = state.plan.tasks.drop (i + 1) := by
  induction i generalizing state with
  | zero =>
    rcases htasks : state.plan.tasks with _ | ⟨t, rest⟩
    · rw [htasks] at hi
      exact absurd hi (by simp)
    · obtain ⟨tool, hlook⟩ := hall t (by rw [htasks]; exact List.mem_cons_self t rest)
      obtain ⟨s2, r, b, hcall, hexec, htail⟩ :=
        Executor.call_cons tools state t rest tool htasks hlook
      refine ⟨state, rfl, ?_, s2, t, r, b, ?_, hcall, hexec, ?_⟩
      · rw [List.drop_zero]
        exact htasks
      · simp
      · rw [htail]
        simp
  | succ i ih =>
    rcases htasks : state.plan.tasks with _ | ⟨t, rest⟩
    · rw [htasks] at hi
      exact absurd hi (by simp)
    · obtain ⟨tool, hlook⟩ := hall t (by rw [htasks]; exact List.mem_cons_self t rest)
      obtain ⟨s1, r0, b0, hcall, _hexec1, htail1⟩ :=
        Executor.call_cons tools state t rest tool htasks hlook
      have hall1 : ∀ u, u ∈ s1.plan.tasks → ∃ tool, tools u.tool_name = some tool := by
        intro u hu
        rw [htail1] at hu
        exact hall u (by rw [htasks]; exact List.mem_cons_of_mem t hu)
      have hi1 : i < s1.plan.tasks.length := by
        rw [htail1]
        rw [htasks] at hi
        simpa using hi
      obtain ⟨si, hrun, hdrop, s2, ti, r, b, hget, hcall2, hexec2, hdrop2⟩ := ih s1 hall1 hi1
      have hstep : Executor.run tools state (i + 1) = Executor.run tools s1 i := by
        simp only [Executor.run]
        rw [hcall]
      refine ⟨si, hstep.trans hrun, ?_, s2, ti, r, b, ?_, hcall2, hexec2, ?_⟩
      · rw [hdrop, htail1, List.drop_succ_cons]
      · rw [List.getElem?_cons_succ, ← htail1]
        exact hget
      · rw [hdrop2, htail1, List.drop_succ_cons]

/-- C6 checked concretely: on a two-task plan over the working registry,
the second invocation (after one run step) records exactly task 1. -/
theorem C6_fifo_witness :
    (∀ t, t ∈ (planState [taskA, taskB]).plan.tasks →
      ∃ tool, regOk t.tool_name = some tool) ∧
    ∃ si, Executor.run regOk (planState [taskA, taskB]) 1 = .ok si ∧
      si.plan.tasks = (planState [taskA, taskB]).plan.tasks.drop 1 ∧
      ∃ s2 ti r b, (planState [taskA, taskB]).plan.tasks[1]? = some ti ∧
        (Executor.call regOk si).result = .ok s2 ∧
        s2.executed_tasks = [{ task := ti, result := r, success := b }] ∧
        s2.plan.tasks = (planState [taskA, taskB]).plan.tasks.drop 2 := by
  have hall : ∀ t, t ∈ (planState [taskA, taskB]).plan.tasks →
      ∃ tool, regOk t.tool_name = some tool := by
    intro t ht
    have hmem : t = taskA ∨ t = taskB := by simpa [planState] using ht
    have hname : t.tool_name = "search" := by
      rcases hmem with h | h <;> rw [h] <;> rfl
    rw [hname]
    exact ⟨searchOk, rfl⟩
  exact ⟨hall, C6_fifo regOk (planState [taskA, taskB]) hall 1 (by decide)⟩

/-! ## C9 -/

/-- C9 fails on the code: `AgentState.initial_state()` builds a Plan with
`requires_tool = False` whose `direct_response` is the empty string, so the
claimed invariant (`requires_tool` false implies non-empty
`direct_response`) does not hold of every Plan in the system. -/
theorem C9_counterexample :
    ¬ (AgentState.initial_state.plan.requires_tool = false →
        AgentState.initial_state.plan.tasks = [] ∧
        AgentState.initial_state.plan.direct_response ≠ "") := by
  decide

/-- C9 (amended): the Plan schema does not enforce the invariant; it is a
prompt-level policy only.  Concretely, the initial state's Plan has
`requires_tool = false` with empty `tasks` — that half of the invariant
holds there — but its `direct_response` is empty, not non-empty. -/
theorem C9_amended :
    AgentState.initial_state.plan.requires_tool = false ∧
    AgentState.initial_state.plan.tasks = [] ∧
    AgentState.initial_state.plan.direct_response = "" := by
  decide

/-! ## C10 -/

/-- C10: with an empty `plan.tasks` the Executor returns the input state
itself unchanged — nothing is recorded, nothing is popped, and the outcome
is the same for every registry, so no tool is consulted. -/
theorem C10_empty_plan (tools : Registry) (state : AgentState)
    (htasks : state.plan.tasks = []) :
    Executor.call tools state = { callerTasks := state.plan.tasks, result := .ok state } := by
  unfold Executor.call
  rw [htasks]

/-- C10 checked concretely on the initial state, whose plan has no tasks. -/
theorem C10_empty_plan_witness :
    AgentState.initial_state.plan.tasks = [] ∧
    Executor.call regOk AgentState.initial_state =
      { callerTasks := AgentState.initial_state.plan.tasks,
        result := .ok AgentState.initial_state } :=
  ⟨rfl, C10_empty_plan regOk AgentState.initial_state rfl⟩

/-! ## C2 -/

/-- A state whose two executed tasks both succeeded with results carrying
the same URL `http://a`. -/
def c2State : AgentState :=
  { input := "q"
    plan := { requires_tool := true, direct_response := "", overview := "ov", tasks := [] }
    executed_tasks :=
      [{ task := searchTask
         result := .bundle [{ url := some "http://a" }] "text1"
         success := true }
       , { task := searchTask
           result := .bundle [{ url := some "http://a" }] "text2"
           success := true }]
    remaining_tasks := []
    response := ""
    message_history := [] }

/-- C2: when two executed tasks carry the same URL, the derived citation
list holds that URL twice, not once — the `dict.fromkeys` dedup runs on
strings already prefixed with distinct indices (`[1] …`, `[2] …`), so it
never removes anything; the code's own dedup call and the spec agree that
one entry was intended. -/
theorem C2_citation_dup :
    (Responder.buildContext c2State).2 = ["[1] http://a", "[2] http://a"] := by
  rfl

/-! ## C7 -/

/-- C7: with a non-empty `direct_response` the Responder makes no model call
— its yielded events are the same for every model token stream — and the
concatenation of the yielded text chunks is byte-for-byte the
`direct_response`. -/
theorem C7_direct_response (tokens1 tokens2 : List String) (state : AgentState)
    (h : state.plan.direct_response ≠ "") :
    Responder.call tokens1 state = Responder.call tokens2 state ∧
    joinStrings (tokenStrings (Responder.call tokens1 state)) =
      state.plan.direct_response := by
  constructor
  · simp only [Responder.call, if_neg h]
  · simp only [Responder.call, if_neg h]
    rw [tokenStrings_tokens_final, joinStrings_stringChunks]

/-- A state answerable directly, without tools. -/
def c7State : AgentState :=
  { input := "hi"
    plan := { requires_tool := false, direct_response := "Hello!", overview := "", tasks := [] }
    executed_tasks := []
    remaining_tasks := []
    response := ""
    message_history := [] }

/-- C7 checked concretely: a direct response `Hello!` yields the same events
under two different model streams, and the chunks concatenate back to it. -/
theorem C7_direct_response_witness :
    c7State.plan.direct_response ≠ "" ∧
    (Responder.call ["x"] c7State = Responder.call [] c7State ∧
      joinStrings (tokenStrings (Responder.call ["x"] c7State)) =
        c7State.plan.direct_response) :=
  ⟨by decide, C7_direct_response ["x"] [] c7State (by decide)⟩

/-! ## C8 -/

/-- A direct-response state for exercising `Responder.astream`. -/
def c8State : AgentState :=
  { input := "hi"
    plan := { requires_tool := false, direct_response := "Hi", overview := "", tasks := [] }
    executed_tasks := []
    remaining_tasks := []
    response := ""
    message_history := [] }

/-- C8 fails on the code: on the direct-response path `Responder.astream`
yields the response text and returns without ever yielding a terminal
event, so not every Responder invocation yields exactly one terminal
event. -/
theorem C8_counterexample :
    Responder.astream [] c8State = [RespEvent.token "Hi"] ∧
    finalCount (Responder.astream [] c8State) = 0 := by
  constructor <;> rfl

/-- C8 (amended): `Responder.__call__` always yields exactly one terminal
event, after all of its text chunks, whose `message_history` is the input
history plus exactly one assistant entry carrying the full response text;
`Responder.astream` gives the same guarantee only when `direct_response` is
empty — on the direct-response path it yields no terminal event at all. -/
theorem C8_amended (modelTokens : List String) (state : AgentState) :
    goodEvents state (Responder.call modelTokens state) ∧
    (state.plan.direct_response = "" →
      goodEvents state (Responder.astream modelTokens state)) := by
  constructor
  · by_cases h : state.plan.direct_response = ""
    · simp only [Responder.call, if_pos h]
      exact goodEvents_tokens_final state _ _ rfl
    · simp only [Responder.call, if_neg h]
      exact goodEvents_tokens_final state _ _ (joinStrings_stringChunks _).symm
  · intro h
    simp only [Responder.astream, if_pos h]
    exact goodEvents_tokens_final state _ _ rfl

/-- A tool-using state (empty `direct_response`) with prior history. -/
def c8wState : AgentState :=
  { input := "q"
    plan := { requires_tool := true, direct_response := "", overview := "ov", tasks := [] }
    executed_tasks := []
    remaining_tasks := []
    response := ""
    message_history := [{ role := "user", content := "q" }] }

/-- C8 amended claim checked concretely on `astream` with an empty
`direct_response` and a two-token model stream. -/
theorem C8_amended_witness :
    c8wState.plan.direct_response = "" ∧
    goodEvents c8wState (Responder.astream ["a", "b"] c8wState) :=
  ⟨rfl, (C8_amended ["a", "b"] c8wState).2 rfl⟩

end PhoenixAgent
